import Mathlib

/-!
Verification of the moray-buckets initializer (node-triton-merci-buckets).

This file shallowly embeds the bucket-setup schema reconciler
(`lib/moray/buckets-setup.js`), the data-migrations module
(`lib/data-migrations/*`), and the buckets initializer's lifecycle into
Lean, and proves the stated properties about them.

Conventions of the embedding:
* JavaScript objects with a known field set become Lean structures; a field
  that may be `undefined` becomes an `Option`.
* Assoc lists `List (String × α)` model JS dictionaries; `jsprim.deepEqual`
  on dictionaries is key-set based, so it is embedded as a two-sided
  lookup comparison rather than list equality.
* Callback pipelines become pure functions returning the list of moray
  calls issued together with an optional error.
-/

namespace MerciBuckets

/-- The `options` sub-object of a bucket schema. The code only ever reads
and writes `options.version`; `none` models an `undefined` version. -/
structure SchemaOptions where
  version : Option Nat
  deriving DecidableEq, Repr

/-- A bucket schema as supplied in a bucket config: `schema.index` maps
field names to index types, and `options`, `pre`, `post` may be absent. -/
structure BucketSchema where
  index : Option (List (String × String))
  options : Option SchemaOptions
  pre : Option (List String)
  post : Option (List String)
  deriving DecidableEq, Repr

/-- A bucket object as returned by `morayClient.getBucket`: a schema plus
the remote-only fields `name` and `mtime`. -/
structure RemoteBucket where
  name : String
  mtime : Option String
  index : Option (List (String × String))
  options : Option SchemaOptions
  pre : Option (List String)
  post : Option (List String)
  deriving DecidableEq, Repr

/-- Version extraction used by `_trySetupBucket`: `0` unless
`schema.options && schema.options.version` is truthy (a version of `0` is
falsy in JS, which coincides with defaulting to `0`). -/
def schemaVersion (options : Option SchemaOptions) : Nat :=
  match options with
  | none => 0
  | some o => o.version.getD 0

/-- Embeds `normalizeBucketSchema`: deep-copies the schema, inserting
`options = {}`, `options.version = 0`, `pre = []` and `post = []` when the
corresponding field is `undefined`. -/
def normalizeBucketSchema (s : BucketSchema) : BucketSchema :=
  let opts := s.options.getD { version := none }
  { index := s.index
    options := some { version := some (opts.version.getD 0) }
    pre := some (s.pre.getD [])
    post := some (s.post.getD []) }

/-- Embeds `bucketObjectToSchema`: deep-copies the remote bucket object and
deletes the remote-only `name` and `mtime` fields. -/
def bucketObjectToSchema (b : RemoteBucket) : BucketSchema :=
  { index := b.index, options := b.options, pre := b.pre, post := b.post }

/-- Embeds `jsprim.deepEqual` restricted to index dictionaries: two
objects are deep-equal when they have the same key count and each key of
the first maps to a deep-equal value in the second (key order is
irrelevant). -/
def indexDeepEqual : Option (List (String × String)) → Option (List (String × String)) → Bool
  | none, none => true
  | some a, some b =>
      a.length == b.length && a.all (fun kv => b.lookup kv.1 == some kv.2)
  | _, _ => false

/-- Embeds `jsprim.deepEqual` on whole bucket schemas: field-wise deep
equality, distinguishing absent fields from present ones, comparing
`pre`/`post` arrays element-wise in order and `index` dictionaries by
key. -/
def bucketSchemaDeepEqual (a b : BucketSchema) : Bool :=
  indexDeepEqual a.index b.index && a.options == b.options
    && a.pre == b.pre && a.post == b.post

/-- Embeds `indexesRemovedBySchemaChange`: the keys of the old schema's
index dictionary that do not occur among the keys of the new schema's index
dictionary (a missing `index` field is treated as no keys). -/
def indexesRemovedBySchemaChange
    (oldIndex newIndex : Option (List (String × String))) : List String :=
  let oldBucketIndexNames := (oldIndex.getD []).map Prod.fst
  let newBucketIndexNames := (newIndex.getD []).map Prod.fst
  oldBucketIndexNames.filter (fun n => !(newBucketIndexNames.contains n))

/-- The terminal errors `_trySetupBucket` itself generates. -/
inductive SetupError where
  | schemaChangesSameVersion (bucketName : String) (oldSchema : RemoteBucket)
      (newSchema : BucketSchema)
  | invalidIndexesRemoval (removed : List String)
  deriving DecidableEq, Repr

/-- A call issued by bucket setup against the moray client. -/
inductive MorayCall where
  | createBucket (name : String) (schema : BucketSchema)
  | updateBucket (name : String) (schema : BucketSchema)
  deriving DecidableEq, Repr

/-- Embeds the `updateBucketSchema` step of `_trySetupBucket`: given the
loaded bucket (after `createBucket` ran for a missing bucket), decide
whether to no-op, update, or fail.  Returns the moray calls issued by this
step and the error passed to `next`, if any. -/
def updateBucketSchemaStep (bucketName : String) (oldBucketSchema : Option RemoteBucket)
    (newBucketSchema : BucketSchema) : List MorayCall × Option SetupError :=
  match oldBucketSchema with
  | none => ([], none)
  | some old =>
      let oldVersion := schemaVersion old.options
      let newVersion := schemaVersion newBucketSchema.options
      if newVersion == oldVersion then
        let normalizedNewSchema := normalizeBucketSchema newBucketSchema
        let normalizedOldSchema := normalizeBucketSchema (bucketObjectToSchema old)
        let sameSchemas := bucketSchemaDeepEqual normalizedOldSchema normalizedNewSchema
        if !sameSchemas then
          ([], some (.schemaChangesSameVersion bucketName old normalizedNewSchema))
        else
          ([], none)
      else if newVersion > oldVersion then
        let removedIndexes :=
          indexesRemovedBySchemaChange old.index newBucketSchema.index
        if removedIndexes.length > 0 then
          ([], some (.invalidIndexesRemoval removedIndexes))
        else
          ([.updateBucket bucketName newBucketSchema], none)
      else
        ([], none)

/-- Embeds `_trySetupBucket` for a bucket whose remote state is `remote`
(`none` models `getBucket` failing with `BucketNotFoundError`): the
`createBucket` step followed by the `updateBucketSchema` step. Returns the
moray calls issued and the error the waterfall ends with, if any. -/
def trySetupBucket (bucketName : String) (newBucketSchema : BucketSchema)
    (remote : Option RemoteBucket) : List MorayCall × Option SetupError :=
  match remote with
  | none =>
      let step := updateBucketSchemaStep bucketName none newBucketSchema
      (.createBucket bucketName newBucketSchema :: step.1, step.2)
  | some old => updateBucketSchemaStep bucketName (some old) newBucketSchema

/-- Remote-side semantics of one moray call on one bucket's state:
`createBucket` installs the schema under the bucket's name, `updateBucket`
replaces the schema fields of the existing bucket. -/
def applyMorayCall (remote : Option RemoteBucket) : MorayCall → Option RemoteBucket
  | .createBucket name schema =>
      some { name := name, mtime := none, index := schema.index,
             options := schema.options, pre := schema.pre, post := schema.post }
  | .updateBucket _ schema =>
      match remote with
      | none => none
      | some old =>
          some { old with index := schema.index, options := schema.options,
                          pre := schema.pre, post := schema.post }

/-- Remote bucket state after a list of issued moray calls. -/
def applyMorayCalls (remote : Option RemoteBucket) (calls : List MorayCall) :
    Option RemoteBucket :=
  calls.foldl applyMorayCall remote

/-- A JS error as seen by `verror`: a named error, either bare or (as
built by the `VError` constructor) wrapping a chained cause. -/
inductive JsError where
  | error (name : String)
  | verror (name : String) (cause : JsError)
  deriving DecidableEq, Repr

/-- The `name` of a `JsError`. -/
def JsError.name : JsError → String
  | .error n => n
  | .verror n _ => n

/-- Embeds `VError.hasCauseWithName(err, name)`: whether the error itself
or any error in its cause chain bears the given name. -/
def hasCauseWithName : JsError → String → Bool
  | .error n, name => n == name
  | .verror n cause, name => n == name || hasCauseWithName cause name

/-- The names of the error itself and of every cause in its chain. -/
def causeChainNames : JsError → List String
  | .error n => [n]
  | .verror n cause => n :: causeChainNames cause

/-- The `NON_TRANSIENT_ERROR_NAMES` list of `isBucketsSetupErrorTransient`
in `lib/moray/buckets-setup.js`. -/
def NON_TRANSIENT_ERROR_NAMES : List String :=
  [ "InvalidBucketConfigError",
    "InvalidBucketNameError",
    "InvalidIndexDefinitionError",
    "NotFunctionError",
    "BucketVersionError",
    "InvalidIndexesRemovalError",
    "SchemaChangesSameVersionError" ]

/-- Embeds `isBucketsSetupErrorTransient`: returns `false` as soon as one
of the non-transient names is found in the error's cause chain, `true`
after exhausting the list. -/
def isBucketsSetupErrorTransient (err : JsError) : Bool :=
  !(NON_TRANSIENT_ERROR_NAMES.any (fun n => hasCauseWithName err n))

/-- The `nonTransientErrors` list of `dataMigrationErrorTransient` in
`lib/data-migrations/*`. -/
def dataMigrationNonTransientErrors : List String :=
  [ "BucketNotFoundError",
    "InvalidIndexTypeError",
    "InvalidQueryError",
    "NotIndexedError",
    "UniqueAttributeError" ]

/-- Embeds `dataMigrationErrorTransient`: returns `false` as soon as one of
the non-transient names is found in the error's cause chain, `true` after
exhausting the list. -/
def dataMigrationErrorTransient (error : JsError) : Bool :=
  !(dataMigrationNonTransientErrors.any (fun n => hasCauseWithName error n))

/-! ### Data migrations: record selection (`_findRecordsToMigrate`) -/

/-- Embeds the LDAP filter construction of `_findRecordsToMigrate`:
`'(!(data_version=*))'` for version 1, and
`util.format('(|(!(data_version=*))(data_version=%s))', version - 1)`
for greater versions (`%s` of a non-negative integer prints its decimal
representation). -/
def morayFilterForMigration (version : Nat) : String :=
  if version = 1 then
    "(!(data_version=*))"
  else
    "(|(!(data_version=*))(data_version=" ++ toString (version - 1) ++ "))"

/-- A fragment of moray's LDAP filter language: presence and (numeric)
equality tests, negation and disjunction.  `data_version` is an index of
type `number`, so the equality test carries a numeric value; rendering
prints its decimal representation. -/
inductive LdapFilter where
  | present (field : String)
  | eqNum (field : String) (value : Nat)
  | not (f : LdapFilter)
  | or (a b : LdapFilter)
  deriving DecidableEq, Repr

/-- Renders an LDAP filter in the string syntax moray consumes. -/
def LdapFilter.render : LdapFilter → String
  | .present field => "(" ++ field ++ "=*)"
  | .eqNum field value => "(" ++ field ++ "=" ++ toString value ++ ")"
  | .not f => "(!" ++ f.render ++ ")"
  | .or a b => "(|" ++ a.render ++ b.render ++ ")"

/-- LDAP filter semantics over a record viewed as a partial map from field
names to numeric values (the only field these filters touch,
`data_version`, is a number-typed index). -/
def LdapFilter.eval (record : String → Option Nat) : LdapFilter → Bool
  | .present field => (record field).isSome
  | .eqNum field value => record field == some value
  | .not f => !(f.eval record)
  | .or a b => a.eval record || b.eval record

/-- The filter of `_findRecordsToMigrate` as an LDAP syntax tree. -/
def migrationFilterAst (version : Nat) : LdapFilter :=
  if version = 1 then
    .not (.present "data_version")
  else
    .or (.not (.present "data_version")) (.eqNum "data_version" (version - 1))

/-- A record's field map when its only relevant field is `data_version`
holding `dv` (absent when `dv = none`). -/
def recordFields (dv : Option Nat) : String → Option Nat :=
  fun field => if field = "data_version" then dv else none

/-- The fixed retry delay of `_findRecordsToMigrate`, in milliseconds. -/
def RETRY_DELAY_IN_MS : Nat := 10000

/-- Outcome of one `findObjects` request issued by the selection step. -/
inductive FindOutcome (ρ : Type) where
  | failure (err : JsError)
  | success (records : List ρ)
  deriving DecidableEq, Repr

/-- Result of `_findRecordsToMigrate` over a finite prefix of `findObjects`
outcomes: the outcome it terminates with (callback error or records),
`none` while it is still retrying past the given outcomes. -/
def findRecordsToMigrate {ρ : Type} :
    List (FindOutcome ρ) → Option (Except JsError (List ρ))
  | [] => none
  | .failure err :: rest =>
      if hasCauseWithName err "InvalidQueryError" then
        findRecordsToMigrate rest
      else
        some (.error err)
  | .success records :: _ => some (.ok records)

/-- The number of `setTimeout(retry, RETRY_DELAY_IN_MS)` sleeps the
selection step schedules over a finite prefix of outcomes. -/
def findRecordsRetries {ρ : Type} : List (FindOutcome ρ) → Nat
  | [] => 0
  | .failure err :: rest =>
      if hasCauseWithName err "InvalidQueryError" then
        1 + findRecordsRetries rest
      else 0
  | .success _ :: _ => 0

/-- Total wall-clock time (ms) the selection step spends sleeping between
retries over a finite prefix of outcomes. -/
def findRecordsRetryTime {ρ : Type} (outcomes : List (FindOutcome ρ)) : Nat :=
  RETRY_DELAY_IN_MS * findRecordsRetries outcomes

/-! ### Data migrations: chunk transformation and batch write -/

/-- The `value` payload of a stored record; the batch writer reads its
`uuid`, the remaining fields are carried opaquely. -/
structure RecordValue where
  uuid : String
  fields : List (String × String)
  deriving DecidableEq, Repr

/-- A record as produced by `findObjects`: a payload plus its etag
(the source reads it from the record as `record._etag`). -/
structure MorayRecord where
  value : RecordValue
  etag : String
  deriving DecidableEq, Repr

/-- One operation of a `morayClient.batch` request. -/
structure BatchOp where
  bucket : String
  operation : String
  key : String
  value : RecordValue
  etag : String
  deriving DecidableEq, Repr

/-- Embeds `generateVmPutBatch` inside `_putBatch`: the batch op written
for one record. -/
def generateVmPutBatch (bucketName : String) (record : MorayRecord) : BatchOp :=
  { bucket := bucketName, operation := "put", key := record.value.uuid,
    value := record.value, etag := record.etag }

/-- Embeds `_putBatch` as called from `_runSingleMigration`: the argument
list holds the raw results of `migrateRecordFunc` (`none` models a falsy
return). `assert.arrayOfObject(records)` throws when any entry is not an
object, otherwise one `put` op is generated per record. -/
def putBatch (bucketName : String) (records : List (Option MorayRecord)) :
    Except String (List BatchOp) :=
  if records.any (fun r => r.isNone) then
    .error "AssertionError: records ([object]) is required"
  else
    .ok ((records.filterMap id).map (generateVmPutBatch bucketName))

/-- Embeds the `migrateRecords` step of `_runSingleMigration` for one
chunk: an empty chunk issues no batch (modelled as `.ok []`); otherwise
every record is mapped through `migrateRecordFunc` and the mapped list is
handed to `_putBatch` unfiltered. -/
def migrateChunk (bucketName : String) (migrateRecordFunc : MorayRecord → Option MorayRecord)
    (records : List MorayRecord) : Except String (List BatchOp) :=
  if records.isEmpty then
    .ok []
  else
    putBatch bucketName (records.map migrateRecordFunc)

/-! ### Data migrations: shared status object (`runMigrations`) -/

/-- The shared status object of the data-migrations run. `latestErrors`
is `none` while the field is absent (it is created on the first error and
deleted once empty); `completed` maps model names to the data version of
their latest completed migration. -/
structure DataMigrationStatus where
  state : String
  latestErrors : Option (List (String × JsError))
  completed : List (String × Nat)
  deriving DecidableEq, Repr

/-- The status value `runMigrations` creates before starting. -/
def initialDataMigrationStatus : DataMigrationStatus :=
  { state := "STARTED", latestErrors := none, completed := [] }

/-- Removes a key from an assoc list (JS `delete obj[key]`). -/
def eraseKey {α : Type} (m : List (String × α)) (key : String) : List (String × α) :=
  m.filter (fun kv => kv.1 != key)

/-- Sets a key in an assoc list (JS `obj[key] = v`). -/
def setKey {α : Type} (m : List (String × α)) (key : String) (v : α) :
    List (String × α) :=
  (key, v) :: eraseKey m key

/-- Embeds the error branch of `onMigration` in `_runMigrationsForModel`:
create `latestErrors` if absent, record the error under the model's name
and set the state to `'ERROR'`. -/
def onMigrationError (modelName : String) (migrationErr : JsError)
    (status : DataMigrationStatus) : DataMigrationStatus :=
  let errs := status.latestErrors.getD []
  { status with latestErrors := some (setKey errs modelName migrationErr),
                state := "ERROR" }

/-- Embeds the success branch of `onMigration` in `_runMigrationsForModel`:
delete the model's entry from `latestErrors` when present, drop the map
entirely once empty, and record the completed data version. -/
def onMigrationSuccess (modelName : String) (dataVersion : Nat)
    (status : DataMigrationStatus) : DataMigrationStatus :=
  let latestErrors :=
    match status.latestErrors with
    | none => none
    | some errs =>
        let errs := if (errs.lookup modelName).isSome then eraseKey errs modelName else errs
        if errs.length == 0 then none else some errs
  { status with latestErrors := latestErrors,
                completed := setKey status.completed modelName dataVersion }

/-- One migration attempt as seen by the status object: the model it ran
for, its `DATA_VERSION`, and the error it failed with, if any. -/
structure MigrationAttempt where
  modelName : String
  dataVersion : Nat
  result : Option JsError
  deriving Repr

/-- The status transition of one migration attempt's `onMigration`
callback. -/
def applyMigrationAttempt (status : DataMigrationStatus) (a : MigrationAttempt) :
    DataMigrationStatus :=
  match a.result with
  | some err => onMigrationError a.modelName err status
  | none => onMigrationSuccess a.modelName a.dataVersion status

/-- Embeds the `allMigrationsDone` callback of `_tryRunMigrations`: the
state is set to `'DONE'` exactly when `vasync.forEachParallel` reported no
error, i.e. when every model's migration pipeline succeeded. -/
def allMigrationsDone (anyModelFailed : Bool) (status : DataMigrationStatus) :
    DataMigrationStatus :=
  if anyModelFailed then status else { status with state := "DONE" }

/-- Whether an interleaved run of migration attempts contains a failure
(this is what makes `forEachParallel` report an error). -/
def attemptsFailed (attempts : List MigrationAttempt) : Bool :=
  attempts.any (fun a => a.result.isSome)

/-- A whole `_tryRunMigrations` run over an interleaved sequence of
per-model migration attempts: each attempt's `onMigration` callback fires
in order, then `allMigrationsDone` runs. -/
def tryRunMigrations (attempts : List MigrationAttempt)
    (status : DataMigrationStatus) : DataMigrationStatus :=
  allMigrationsDone (attemptsFailed attempts) (attempts.foldl applyMigrationAttempt status)

/-! ### The MorayBucketsInitializer lifecycle and status snapshot

The current `lib/buckets-initializer.js` (the revision whose API the
repository's tests, README and `index.js` use) is not among the sources;
the definitions below are modelled from the spec's description of its
lifecycle and of `status()`.  Mutable JS objects are modelled with an
explicit heap of cells addressed by index, so that aliasing between the
internal status object and the value `status()` returns is expressible. -/

/-- The admissible values of every `state` field of the Status Model. -/
def VALID_STATES : List String :=
  ["NOT_STARTED", "STARTED", "DONE", "ERROR"]

/-- One mutable sub-record of the Status Model (`bucketsSetup`,
`bucketsReindex` or `dataMigrations`): its `state` field plus its
remaining fields, carried opaquely. -/
structure StatusCell where
  state : String
  info : List (String × String)
  deriving DecidableEq, Repr

/-- A heap of mutable status cells; an address is an index. -/
abbrev StatusHeap := List StatusCell

/-- The addresses of the three sub-records of a Status Model object. -/
structure StatusAddrs where
  bucketsSetup : Nat
  bucketsReindex : Nat
  dataMigrations : Nat
  deriving DecidableEq, Repr

/-- Reads the cell at an address. -/
def readCell (h : StatusHeap) (a : Nat) : Option StatusCell :=
  h[a]?

/-- Mutates the cell at an address (a JS field assignment through a
reference). -/
def writeCell (h : StatusHeap) (a : Nat) (c : StatusCell) : StatusHeap :=
  List.set h a c

/-- Modelled from the spec: `status()` returns a deep copy of the current
Status Model (`jsprim.deepCopy`).  Copying allocates three fresh cells at
the end of the heap, with the same contents as the internal sub-records,
and returns their addresses. -/
def statusDeepCopy (h : StatusHeap) (s : StatusAddrs) : StatusHeap × StatusAddrs :=
  (h ++ [ (readCell h s.bucketsSetup).getD { state := "", info := [] },
          (readCell h s.bucketsReindex).getD { state := "", info := [] },
          (readCell h s.dataMigrations).getD { state := "", info := [] } ],
   { bucketsSetup := h.length, bucketsReindex := h.length + 1,
     dataMigrations := h.length + 2 })

/-- An initializer instance: whether `start()` has been called, plus the
heap holding its internal Status Model. -/
structure Initializer where
  startCalled : Bool
  heap : StatusHeap
  statusAddrs : StatusAddrs

/-- The address holds a live cell whose `state` field is one of the four
admissible values. -/
def stateValidAt (h : StatusHeap) (a : Nat) : Prop :=
  ∃ c, readCell h a = some c ∧ c.state ∈ VALID_STATES

/-- The internal Status Model is intact: its three addresses are live and
every `state` field holds one of the four admissible values. -/
def Initializer.wellFormed (i : Initializer) : Prop :=
  stateValidAt i.heap i.statusAddrs.bucketsSetup ∧
  stateValidAt i.heap i.statusAddrs.bucketsReindex ∧
  stateValidAt i.heap i.statusAddrs.dataMigrations

/-- Modelled from the spec: `start()` is not re-entrant — a second call
fails with `BucketsInitAlreadyStartedError` and leaves the instance (and
hence the pipeline the first call launched) untouched; the first call
marks the instance started and moves the setup phase to `STARTED`. -/
def Initializer.start (i : Initializer) : Option JsError × Initializer :=
  if i.startCalled then
    (some (.error "BucketsInitAlreadyStartedError"), i)
  else
    let setupCell := (readCell i.heap i.statusAddrs.bucketsSetup).getD
      { state := "", info := [] }
    (none,
     { i with startCalled := true,
              heap := writeCell i.heap i.statusAddrs.bucketsSetup
                { setupCell with state := "STARTED" } })

/-- Modelled from the spec: `status()` — a deep copy of the Status Model,
returned together with the heap extended by the copy's fresh cells. -/
def Initializer.status (i : Initializer) : StatusHeap × StatusAddrs :=
  statusDeepCopy i.heap i.statusAddrs

/-! ## Theorems -/

/-- An error's cause chain bears a name exactly when `hasCauseWithName`
says so. -/
lemma hasCauseWithName_eq_true_iff (e : JsError) (n : String) :
    hasCauseWithName e n = true ↔ n ∈ causeChainNames e := by
  induction e with
  | error m =>
    rw [hasCauseWithName, causeChainNames, beq_iff_eq, List.mem_singleton]
    exact eq_comm
  | verror m c ih =>
    rw [hasCauseWithName, causeChainNames, Bool.or_eq_true, beq_iff_eq, ih,
      List.mem_cons]
    exact or_congr_left eq_comm

/-- Claim C4: the schema-setup error classifier returns `false` (terminal)
exactly when some error in the cause chain bears one of the seven
non-transient names of `NON_TRANSIENT_ERROR_NAMES`; every other error is
classified transient (`true`). -/
theorem isBucketsSetupErrorTransient_spec (err : JsError) :
    isBucketsSetupErrorTransient err = false ↔
      ∃ n ∈ causeChainNames err, n ∈ NON_TRANSIENT_ERROR_NAMES := by
  simp only [isBucketsSetupErrorTransient, Bool.not_eq_false', List.any_eq_true,
    hasCauseWithName_eq_true_iff]
  exact ⟨fun ⟨n, hmem, hchain⟩ => ⟨n, hchain, hmem⟩,
         fun ⟨n, hchain, hmem⟩ => ⟨n, hmem, hchain⟩⟩

/-- Claim C5: the record-selection filter of a data migration to version
`V` is exactly `'(!(data_version=*))'` when `V = 1` and exactly
`'(|(!(data_version=*))(data_version=N))'` with `N = V - 1` when `V > 1`;
under the data model's invariant that any present `data_version` is `≥ 1`,
the filter selects precisely the records whose `data_version` is `V - 1`
or missing. -/
theorem morayFilterForMigration_spec (version : Nat) (dv : Option Nat)
    (hversion : 1 ≤ version) (hdv : ∀ k, dv = some k → 1 ≤ k) :
    (version = 1 → morayFilterForMigration version = "(!(data_version=*))") ∧
    (1 < version → morayFilterForMigration version =
        "(|(!(data_version=*))(data_version=" ++ toString (version - 1) ++ "))") ∧
    morayFilterForMigration version = (migrationFilterAst version).render ∧
    ((migrationFilterAst version).eval (recordFields dv) = true ↔
        (dv = none ∨ dv = some (version - 1))) := by
  rcases Nat.lt_or_ge 1 version with hgt | hle
  · have hne : version ≠ 1 := by omega
    refine ⟨fun h => absurd h hne, fun _ => ?_, ?_, ?_⟩
    · simp only [morayFilterForMigration, if_neg hne]
    · simp only [morayFilterForMigration, migrationFilterAst, if_neg hne,
        LdapFilter.render]
      apply String.ext
      simp [String.data_append]
    · simp only [migrationFilterAst, if_neg hne]
      cases dv with
      | none => simp [LdapFilter.eval, recordFields]
      | some k => simp [LdapFilter.eval, recordFields]
  · have h1 : version = 1 := by omega
    subst h1
    refine ⟨fun _ => rfl, fun h => absurd h (by omega), rfl, ?_⟩
    cases dv with
    | none => simp [migrationFilterAst, LdapFilter.eval, recordFields]
    | some k =>
        have hk : 1 ≤ k := hdv k rfl
        simp only [migrationFilterAst, if_pos rfl, LdapFilter.eval, recordFields]
        simp
        omega

/-- Witness for C5 at `V = 2` and a record at `data_version = 1`. -/
theorem morayFilterForMigration_spec_witness :
    morayFilterForMigration 2 = "(|(!(data_version=*))(data_version=1))" ∧
    (migrationFilterAst 2).eval (recordFields (some 1)) = true := by
  have h := morayFilterForMigration_spec 2 (some 1) (by decide)
    (fun k hk => by cases hk; decide)
  refine ⟨?_, ?_⟩
  · have := h.2.1 (by decide)
    simpa using this
  · exact h.2.2.2.mpr (Or.inr rfl)

/-- Claim C1: for an existing bucket whose desired schema version equals
the remote version, `_trySetupBucket` normalizes both schemas (inserting
`options`/`pre`/`post` defaults, defaulting `options.version` to 0 and
dropping the remote-only `name`/`mtime` fields) and compares them
structurally: equal means a no-op, unequal means the terminal
`SchemaChangesSameVersionError` — and no `updateBucket` (or `createBucket`)
call is issued in either case. -/
theorem trySetupBucket_same_version_spec (bucketName : String)
    (old : RemoteBucket) (newBucketSchema : BucketSchema)
    (hver : schemaVersion newBucketSchema.options = schemaVersion old.options) :
    ((normalizeBucketSchema newBucketSchema).options =
        some { version := some (schemaVersion newBucketSchema.options) } ∧
      (normalizeBucketSchema newBucketSchema).pre =
        some (newBucketSchema.pre.getD []) ∧
      (normalizeBucketSchema newBucketSchema).post =
        some (newBucketSchema.post.getD []) ∧
      bucketObjectToSchema old =
        { index := old.index, options := old.options,
          pre := old.pre, post := old.post }) ∧
    (bucketSchemaDeepEqual (normalizeBucketSchema (bucketObjectToSchema old))
        (normalizeBucketSchema newBucketSchema) = true →
      trySetupBucket bucketName newBucketSchema (some old) = ([], none)) ∧
    (bucketSchemaDeepEqual (normalizeBucketSchema (bucketObjectToSchema old))
        (normalizeBucketSchema newBucketSchema) = false →
      trySetupBucket bucketName newBucketSchema (some old) =
        ([], some (.schemaChangesSameVersion bucketName old
            (normalizeBucketSchema newBucketSchema)))) := by
  refine ⟨⟨?_, rfl, rfl, rfl⟩, ?_, ?_⟩
  · cases hopts : newBucketSchema.options with
    | none => simp [normalizeBucketSchema, schemaVersion, hopts]
    | some o => simp [normalizeBucketSchema, schemaVersion, hopts]
  · intro hsame
    rw [trySetupBucket, updateBucketSchemaStep]
    simp only [hver, beq_self_eq_true, if_pos rfl, hsame]
    rfl
  · intro hdiff
    rw [trySetupBucket, updateBucketSchemaStep]
    simp only [hver, beq_self_eq_true, if_pos rfl, hdiff]
    rfl

/-- Witness for C1: a same-version config whose index gained a field
without a version bump fails with `SchemaChangesSameVersionError`, issuing
no moray call. -/
theorem trySetupBucket_same_version_spec_witness :
    trySetupBucket "b"
        { index := some [("foo", "string"), ("bar", "string")],
          options := some { version := some 1 }, pre := none, post := none }
        (some { name := "b", mtime := some "t",
                index := some [("foo", "string")],
                options := some { version := some 1 },
                pre := some [], post := some [] }) =
      ([], some (.schemaChangesSameVersion "b"
        { name := "b", mtime := some "t", index := some [("foo", "string")],
          options := some { version := some 1 }, pre := some [], post := some [] }
        { index := some [("foo", "string"), ("bar", "string")],
          options := some { version := some 1 }, pre := some [],
          post := some [] })) := by
  exact (trySetupBucket_same_version_spec "b"
    { name := "b", mtime := some "t", index := some [("foo", "string")],
      options := some { version := some 1 }, pre := some [], post := some [] }
    { index := some [("foo", "string"), ("bar", "string")],
      options := some { version := some 1 }, pre := none, post := none }
    (by decide)).2.2 (by decide)

/-- Claim C2: for an existing bucket whose desired version is strictly
greater than the remote version, a non-empty set of removed index keys
fails terminally with `InvalidIndexesRemovalError` and issues no
`updateBucket` call; an empty set issues exactly one `updateBucket` with
the desired schema, whose index keys include every remote index key. -/
theorem trySetupBucket_version_bump_spec (bucketName : String)
    (old : RemoteBucket) (newBucketSchema : BucketSchema)
    (hver : schemaVersion old.options < schemaVersion newBucketSchema.options) :
    (indexesRemovedBySchemaChange old.index newBucketSchema.index ≠ [] →
      trySetupBucket bucketName newBucketSchema (some old) =
        ([], some (.invalidIndexesRemoval
          (indexesRemovedBySchemaChange old.index newBucketSchema.index)))) ∧
    (indexesRemovedBySchemaChange old.index newBucketSchema.index = [] →
      trySetupBucket bucketName newBucketSchema (some old) =
        ([.updateBucket bucketName newBucketSchema], none) ∧
      ∀ k ∈ (old.index.getD []).map Prod.fst,
        k ∈ (newBucketSchema.index.getD []).map Prod.fst) := by
  have hne : ¬(schemaVersion newBucketSchema.options ==
      schemaVersion old.options) = true := by
    simp only [beq_iff_eq]
    omega
  constructor
  · intro hrem
    rw [trySetupBucket, updateBucketSchemaStep]
    rw [if_neg hne, if_pos (by simpa using hver),
      if_pos (List.length_pos.mpr hrem)]
  · intro hrem
    refine ⟨?_, ?_⟩
    · rw [trySetupBucket, updateBucketSchemaStep]
      rw [if_neg hne, if_pos (by simpa using hver),
        if_neg (by simp [hrem])]
    · intro k hk
      by_contra hnot
      have : k ∈ indexesRemovedBySchemaChange old.index newBucketSchema.index := by
        rw [indexesRemovedBySchemaChange]
        refine List.mem_filter.mpr ⟨hk, ?_⟩
        simpa using hnot
      rw [hrem] at this
      exact absurd this (List.not_mem_nil k)

/-- Witness for C2: bumping the version from 1 to 2 while keeping all
index keys issues the `updateBucket` call. -/
theorem trySetupBucket_version_bump_spec_witness :
    trySetupBucket "b"
        { index := some [("foo", "string"), ("bar", "string")],
          options := some { version := some 2 }, pre := none, post := none }
        (some { name := "b", mtime := none, index := some [("foo", "string")],
                options := some { version := some 1 }, pre := none,
                post := none }) =
      ([.updateBucket "b"
          { index := some [("foo", "string"), ("bar", "string")],
            options := some { version := some 2 }, pre := none, post := none }],
        none) := by
  exact ((trySetupBucket_version_bump_spec "b"
    { name := "b", mtime := none, index := some [("foo", "string")],
      options := some { version := some 1 }, pre := none, post := none }
    { index := some [("foo", "string"), ("bar", "string")],
      options := some { version := some 2 }, pre := none, post := none }
    (by decide)).2 (by decide)).1

/-- Claim C3: for an existing bucket whose desired version is strictly
lower than the remote version, `_trySetupBucket` is a no-op: it issues no
`createBucket` and no `updateBucket` call, the remote bucket is left
unchanged, and its version stays at least the desired version. -/
theorem trySetupBucket_downgrade_spec (bucketName : String)
    (old : RemoteBucket) (newBucketSchema : BucketSchema)
    (hver : schemaVersion newBucketSchema.options < schemaVersion old.options) :
    trySetupBucket bucketName newBucketSchema (some old) = ([], none) ∧
    applyMorayCalls (some old)
        (trySetupBucket bucketName newBucketSchema (some old)).1 = some old ∧
    (∀ r, applyMorayCalls (some old)
        (trySetupBucket bucketName newBucketSchema (some old)).1 = some r →
      schemaVersion newBucketSchema.options ≤ schemaVersion r.options) := by
  have hne : ¬(schemaVersion newBucketSchema.options ==
      schemaVersion old.options) = true := by
    simp only [beq_iff_eq]
    omega
  have hnogt : ¬(schemaVersion newBucketSchema.options >
      schemaVersion old.options) := by omega
  have hmain : trySetupBucket bucketName newBucketSchema (some old) = ([], none) := by
    rw [trySetupBucket, updateBucketSchemaStep]
    rw [if_neg hne, if_neg (by simpa using hnogt)]
  refine ⟨hmain, ?_, ?_⟩
  · rw [hmain]
    rfl
  · intro r hr
    rw [hmain] at hr
    have : old = r := by
      simpa [applyMorayCalls] using hr
    subst this
    omega

/-- Counterexample to C7 as stated: a chunk containing one record for
which the migrate function returns `none` is not skipped — the mapped
result is handed to `_putBatch`, whose `assert.arrayOfObject` fails,
instead of producing the empty batch a skip would yield. -/
theorem migrateChunk_no_skip_counterexample :
    migrateChunk "b" (fun _ => none)
        [{ value := { uuid := "u", fields := [] }, etag := "e" }] =
      Except.error "AssertionError: records ([object]) is required" ∧
    migrateChunk "b" (fun _ => none)
        [{ value := { uuid := "u", fields := [] }, etag := "e" }] ≠
      Except.ok [] := by
  refine ⟨rfl, ?_⟩
  intro h
  rw [show migrateChunk "b" (fun _ => none)
      [{ value := { uuid := "u", fields := [] }, etag := "e" }] =
      Except.error "AssertionError: records ([object]) is required" from rfl] at h
  exact Except.noConfusion h

/-- Claim C7 (amended): in each migration chunk every value returned by
the migrate function is included in the batched put — a `none` (falsy)
return is not skipped but fails the batch step's array-of-objects
assertion — and when the migrate function returns a record for every
record of the chunk, each one is written via a batch op with operation
`'put'`, key `record.value.uuid`, the record's value and the record's
etag. -/
theorem migrateChunk_put_spec (bucketName : String)
    (migrateRecordFunc : MorayRecord → Option MorayRecord)
    (records : List MorayRecord) :
    ((∃ r ∈ records, migrateRecordFunc r = none) →
      migrateChunk bucketName migrateRecordFunc records =
        Except.error "AssertionError: records ([object]) is required") ∧
    ((∀ r ∈ records, (migrateRecordFunc r).isSome) →
      migrateChunk bucketName migrateRecordFunc records =
        Except.ok ((records.filterMap migrateRecordFunc).map
          (generateVmPutBatch bucketName)) ∧
      ∀ op ∈ (records.filterMap migrateRecordFunc).map
          (generateVmPutBatch bucketName),
        op.operation = "put" ∧
        ∃ r r', r ∈ records ∧ migrateRecordFunc r = some r' ∧
          op.key = r'.value.uuid ∧ op.value = r'.value ∧ op.etag = r'.etag) := by
  constructor
  · rintro ⟨r, hr, hnone⟩
    have hne : records.isEmpty = false := by
      cases records with
      | nil => cases hr
      | cons a l => rfl
    rw [migrateChunk, if_neg (by simp [hne]), putBatch,
      if_pos (List.any_eq_true.mpr ⟨none, List.mem_map.mpr ⟨r, hr, hnone⟩, rfl⟩)]
  · intro hall
    constructor
    · cases hrec : records with
      | nil => simp [migrateChunk, hrec]
      | cons a l =>
        subst hrec
        rw [migrateChunk, if_neg (by simp), putBatch, if_neg, List.filterMap_map]
        · rfl
        · rw [List.any_eq_true]
          rintro ⟨o, ho, hnone⟩
          obtain ⟨r, hr, hro⟩ := List.mem_map.mp ho
          have hsome := hall r hr
          rw [hro] at hsome
          cases o with
          | none => exact Bool.noConfusion hsome
          | some v => exact Bool.noConfusion hnone
    · intro op hop
      obtain ⟨r', hr', hgen⟩ := List.mem_map.mp hop
      obtain ⟨r, hr, hmr⟩ := List.mem_filterMap.mp hr'
      exact ⟨hgen ▸ rfl, r, r', hr, hmr, hgen ▸ rfl, hgen ▸ rfl, hgen ▸ rfl⟩

/-- Witness for the amended C7: a one-record chunk whose migrate function
returns the record unchanged yields exactly one `put` op keyed by the
record's uuid and etag. -/
theorem migrateChunk_put_spec_witness :
    migrateChunk "b" some
        [{ value := { uuid := "u", fields := [] }, etag := "e" }] =
      Except.ok [{ bucket := "b", operation := "put", key := "u",
                   value := { uuid := "u", fields := [] }, etag := "e" }] := by
  have h := (migrateChunk_put_spec "b" some
    [{ value := { uuid := "u", fields := [] }, etag := "e" }]).2
    (fun r _ => rfl)
  exact h.1

/-- Counterexample to C6 as stated: the selection step's retry-on-
`InvalidQueryError` loop has no bounded wall-clock budget — for every
candidate bound there is a run of consecutive `InvalidQueryError`
failures whose accumulated retry delay exceeds it. -/
theorem findRecords_no_bounded_budget_counterexample :
    ¬ ∃ B : Nat, ∀ n : Nat,
      findRecordsRetryTime
        (List.replicate n
            (FindOutcome.failure (ρ := MorayRecord) (.error "InvalidQueryError")) ++
          [FindOutcome.success []]) ≤ B := by
  rintro ⟨B, hB⟩
  have hcount : ∀ n : Nat,
      findRecordsRetries
        (List.replicate n
            (FindOutcome.failure (ρ := MorayRecord) (.error "InvalidQueryError")) ++
          [FindOutcome.success []]) = n := by
    intro n
    induction n with
    | zero => rfl
    | succ k ih =>
      rw [List.replicate_succ, List.cons_append, findRecordsRetries,
        if_pos (by rfl), ih]
      omega
  have h := hB (B + 1)
  rw [findRecordsRetryTime, hcount, RETRY_DELAY_IN_MS] at h
  omega

/-- Claim C6 (amended): on a selection error whose cause chain bears
`InvalidQueryError`, `_findRecordsToMigrate` sleeps the fixed
`RETRY_DELAY_IN_MS = 10000` ms and retries the selection step alone, with
no wall-clock bound; any selection error without an `InvalidQueryError`
cause is propagated to the caller unchanged; consequently the error it
reports never carries an `InvalidQueryError` cause — which the Backoff
Runner's classifier `dataMigrationErrorTransient` would flag as
terminal. -/
theorem findRecordsToMigrate_retry_spec :
    RETRY_DELAY_IN_MS = 10000 ∧
    (∀ (err : JsError) (rest : List (FindOutcome MorayRecord)),
      hasCauseWithName err "InvalidQueryError" = true →
        findRecordsToMigrate (.failure err :: rest) = findRecordsToMigrate rest ∧
        findRecordsRetryTime (.failure err :: rest) =
          RETRY_DELAY_IN_MS + findRecordsRetryTime rest) ∧
    (∀ (err : JsError) (rest : List (FindOutcome MorayRecord)),
      hasCauseWithName err "InvalidQueryError" = false →
        findRecordsToMigrate (.failure err :: rest) = some (.error err)) ∧
    (∀ (outcomes : List (FindOutcome MorayRecord)) (e : JsError),
      findRecordsToMigrate outcomes = some (.error e) →
        hasCauseWithName e "InvalidQueryError" = false) ∧
    (∀ e : JsError, hasCauseWithName e "InvalidQueryError" = true →
      dataMigrationErrorTransient e = false) := by
  refine ⟨rfl, ?_, ?_, ?_, ?_⟩
  · intro err rest hiqe
    refine ⟨?_, ?_⟩
    · rw [findRecordsToMigrate, if_pos hiqe]
    · rw [findRecordsRetryTime, findRecordsRetries, if_pos hiqe,
        findRecordsRetryTime, Nat.mul_add, Nat.mul_one]
  · intro err rest hiqe
    rw [findRecordsToMigrate, if_neg (by simp [hiqe])]
  · intro outcomes
    induction outcomes with
    | nil => intro e he; cases he
    | cons o rest ih =>
      intro e he
      cases o with
      | failure err =>
        by_cases hiqe : hasCauseWithName err "InvalidQueryError" = true
        · rw [findRecordsToMigrate, if_pos hiqe] at he
          exact ih e he
        · rw [findRecordsToMigrate, if_neg hiqe] at he
          have : err = e := by
            injection he with h1
            injection h1
          subst this
          simpa using hiqe
      | success records =>
        rw [findRecordsToMigrate] at he
        injection he with h1
        cases h1
  · intro e hiqe
    have : dataMigrationNonTransientErrors.any
        (fun n => hasCauseWithName e n) = true := by
      refine List.any_eq_true.mpr ⟨"InvalidQueryError", ?_, hiqe⟩
      rw [dataMigrationNonTransientErrors]
      simp
    rw [dataMigrationErrorTransient, this]
    rfl

/-- Witness for the amended C6: one `InvalidQueryError` outcome is retried
after a 10-second sleep and a subsequent success returns the records,
while a plain error is propagated and classified terminal nowhere. -/
theorem findRecordsToMigrate_retry_spec_witness :
    findRecordsToMigrate
        [FindOutcome.failure (ρ := MorayRecord) (.verror "wrap" (.error "InvalidQueryError")),
         FindOutcome.success []] = some (Except.ok []) ∧
    findRecordsRetryTime
        [FindOutcome.failure (ρ := MorayRecord) (.verror "wrap" (.error "InvalidQueryError")),
         FindOutcome.success []] = 10000 ∧
    findRecordsToMigrate [FindOutcome.failure (ρ := MorayRecord) (.error "SomeError")] =
      some (Except.error (.error "SomeError")) ∧
    dataMigrationErrorTransient (.verror "wrap" (.error "InvalidQueryError")) = false := by
  have hretry := findRecordsToMigrate_retry_spec.2.1
    (.verror "wrap" (.error "InvalidQueryError"))
    [FindOutcome.success (ρ := MorayRecord) []] (by decide)
  have hprop := findRecordsToMigrate_retry_spec.2.2.1 (.error "SomeError")
    ([] : List (FindOutcome MorayRecord)) (by decide)
  have hterm := findRecordsToMigrate_retry_spec.2.2.2.2
    (.verror "wrap" (.error "InvalidQueryError")) (by decide)
  refine ⟨?_, ?_, hprop, hterm⟩
  · rw [hretry.1]
    rfl
  · rw [hretry.2]
    rfl

/-- Witness for C3: a config at version 1 against a remote bucket at
version 2 leaves the remote bucket untouched. -/
theorem trySetupBucket_downgrade_spec_witness :
    trySetupBucket "b"
        { index := some [("foo", "string")],
          options := some { version := some 1 }, pre := none, post := none }
        (some { name := "b", mtime := none,
                index := some [("foo", "string"), ("bar", "string")],
                options := some { version := some 2 }, pre := none,
                post := none }) = ([], none) := by
  exact (trySetupBucket_downgrade_spec "b"
    { name := "b", mtime := none,
      index := some [("foo", "string"), ("bar", "string")],
      options := some { version := some 2 }, pre := none, post := none }
    { index := some [("foo", "string")],
      options := some { version := some 1 }, pre := none, post := none }
    (by decide)).1

/-- Looking up a key just deleted from an assoc list yields nothing. -/
lemma lookup_eraseKey {α : Type} (l : List (String × α)) (m : String) :
    (eraseKey l m).lookup m = none := by
  induction l with
  | nil => rfl
  | cons kv tl ih =>
    obtain ⟨k, v⟩ := kv
    rw [eraseKey, List.filter_cons]
    by_cases h : k = m
    · rw [if_neg (by simp [h])]
      exact ih
    · rw [if_pos (by simp [h]), List.lookup]
      have hmn : (m == k) = false := by
        simp only [beq_eq_false_iff_ne, ne_eq]
        exact fun hh => h hh.symm
      rw [hmn]
      exact ih

/-- Deleting one key from an assoc list leaves lookups of other keys
unchanged. -/
lemma lookup_eraseKey_ne {α : Type} (l : List (String × α)) (k m : String)
    (h : m ≠ k) : (eraseKey l k).lookup m = l.lookup m := by
  induction l with
  | nil => rfl
  | cons kv tl ih =>
    obtain ⟨k0, v0⟩ := kv
    rw [eraseKey, List.filter_cons]
    by_cases hk : k0 = k
    · rw [if_neg (by simp [hk])]
      rw [List.lookup]
      have hmk : (m == k0) = false := by
        simp only [beq_eq_false_iff_ne, ne_eq]
        rw [hk]
        exact h
      rw [hmk]
      exact ih
    · rw [if_pos (by simp [hk]), List.lookup, List.lookup]
      cases hmk : (m == k0) with
      | true => rfl
      | false => exact ih

/-- A freshly set key is found by lookup. -/
lemma lookup_setKey {α : Type} (l : List (String × α)) (m : String) (v : α) :
    (setKey l m v).lookup m = some v := by
  simp [setKey, List.lookup]

/-- One migration attempt never removes an entry of `completed`. -/
lemma applyMigrationAttempt_preserves_completed (st : DataMigrationStatus)
    (a : MigrationAttempt) (m : String)
    (h : (st.completed.lookup m).isSome = true) :
    (((applyMigrationAttempt st a).completed).lookup m).isSome = true := by
  rcases a with ⟨modelName, dataVersion, result⟩
  cases result with
  | some err => exact h
  | none =>
    rw [applyMigrationAttempt]
    simp only
    rw [onMigrationSuccess]
    simp only
    by_cases hm : m = modelName
    · subst hm
      rw [lookup_setKey]
      rfl
    · rw [setKey, List.lookup]
      have : (m == modelName) = false := by simp [hm]
      rw [this, lookup_eraseKey_ne st.completed modelName m hm, h]

/-- One migration attempt either preserves the `state` field or sets it
to `'ERROR'`. -/
lemma applyMigrationAttempt_state (st : DataMigrationStatus)
    (a : MigrationAttempt) :
    (applyMigrationAttempt st a).state = st.state ∨
      (applyMigrationAttempt st a).state = "ERROR" := by
  rcases a with ⟨modelName, dataVersion, result⟩
  cases result with
  | some err => exact Or.inr rfl
  | none => exact Or.inl rfl

/-- The migration attempts of a run never make the state `'DONE'`. -/
lemma foldl_applyMigrationAttempt_state_ne_done
    (attempts : List MigrationAttempt) (st : DataMigrationStatus)
    (h : st.state ≠ "DONE") :
    (attempts.foldl applyMigrationAttempt st).state ≠ "DONE" := by
  induction attempts generalizing st with
  | nil => exact h
  | cons a rest ih =>
    rw [List.foldl_cons]
    apply ih
    rcases applyMigrationAttempt_state st a with heq | heq
    · rw [heq]; exact h
    · rw [heq]; decide

/-- Claim C10: after every migration attempt, a failure sets the shared
status's `state` to `'ERROR'` and records the error under the model in
`latestErrors` (leaving `completed` alone), while a success removes the
model's `latestErrors` entry (dropping the map entirely once empty) and
records the migration's `DATA_VERSION` under the model in `completed`;
entries of `completed` are never removed by any later attempt; and a run
started from the initial status ends with `state = 'DONE'` exactly when
no attempt of any model failed. -/
theorem dataMigrationStatus_spec :
    (∀ (m : String) (e : JsError) (st : DataMigrationStatus),
      (onMigrationError m e st).state = "ERROR" ∧
      ((onMigrationError m e st).latestErrors.getD []).lookup m = some e ∧
      (onMigrationError m e st).completed = st.completed) ∧
    (∀ (m : String) (v : Nat) (st : DataMigrationStatus),
      (onMigrationSuccess m v st).state = st.state ∧
      (∀ errs, (onMigrationSuccess m v st).latestErrors = some errs →
        errs.lookup m = none ∧ errs ≠ []) ∧
      (onMigrationSuccess m v st).completed.lookup m = some v) ∧
    (∀ (attempts : List MigrationAttempt) (st : DataMigrationStatus)
        (m : String),
      (st.completed.lookup m).isSome = true →
        (((tryRunMigrations attempts st).completed).lookup m).isSome = true) ∧
    (∀ attempts : List MigrationAttempt,
      (tryRunMigrations attempts initialDataMigrationStatus).state = "DONE" ↔
        attemptsFailed attempts = false) := by
  refine ⟨?_, ?_, ?_, ?_⟩
  · intro m e st
    exact ⟨rfl, lookup_setKey _ m e, rfl⟩
  · intro m v st
    refine ⟨rfl, ?_, lookup_setKey _ m v⟩
    intro errs heq
    obtain ⟨stState, stErrs, stCompleted⟩ := st
    cases stErrs with
    | none =>
      simp only [onMigrationSuccess] at heq
      exact Option.noConfusion heq
    | some errs0 =>
      simp only [onMigrationSuccess] at heq
      by_cases hsome : (List.lookup m errs0).isSome = true
      · rw [if_pos hsome] at heq
        by_cases hlen : ((eraseKey errs0 m).length == 0) = true
        · rw [if_pos hlen] at heq
          exact Option.noConfusion heq
        · rw [if_neg hlen] at heq
          injection heq with heq
          subst heq
          refine ⟨lookup_eraseKey errs0 m, ?_⟩
          intro hnil
          apply hlen
          rw [hnil]
          rfl
      · rw [if_neg hsome] at heq
        by_cases hlen : (errs0.length == 0) = true
        · rw [if_pos hlen] at heq
          exact Option.noConfusion heq
        · rw [if_neg hlen] at heq
          injection heq with heq
          subst heq
          refine ⟨?_, ?_⟩
          · cases hv : List.lookup m errs0 with
            | none => rfl
            | some w => rw [hv] at hsome; exact absurd rfl hsome
          · intro hnil
            apply hlen
            rw [hnil]
            rfl
  · intro attempts st m h
    rw [tryRunMigrations]
    have hfold : (((attempts.foldl applyMigrationAttempt st).completed).lookup m).isSome = true := by
      induction attempts generalizing st with
      | nil => exact h
      | cons a rest ih =>
        rw [List.foldl_cons]
        exact ih _ (applyMigrationAttempt_preserves_completed st a m h)
    cases hfail : attemptsFailed attempts with
    | false => rw [allMigrationsDone, if_neg (by simp)]; exact hfold
    | true => rw [allMigrationsDone, if_pos rfl]; exact hfold
  · intro attempts
    cases hfail : attemptsFailed attempts with
    | false =>
      rw [tryRunMigrations, hfail, allMigrationsDone, if_neg (by simp)]
      simp
    | true =>
      rw [tryRunMigrations, hfail, allMigrationsDone, if_pos rfl]
      constructor
      · intro hdone
        exact absurd hdone
          (foldl_applyMigrationAttempt_state_ne_done attempts
            initialDataMigrationStatus (by decide))
      · intro hcontra
        exact Bool.noConfusion hcontra

/-- Witness for C10: one successful attempt records the completed version,
which a later failing attempt does not remove, and a fully successful run
ends in `'DONE'`. -/
theorem dataMigrationStatus_spec_witness :
    ((tryRunMigrations
        [{ modelName := "m", dataVersion := 2, result := some (.error "E") }]
        { state := "STARTED", latestErrors := none,
          completed := [("m", 1)] }).completed.lookup "m").isSome = true ∧
    ((onMigrationSuccess "m" 1 initialDataMigrationStatus).latestErrors =
        none → True) ∧
    (tryRunMigrations
        [{ modelName := "m", dataVersion := 1, result := none }]
        initialDataMigrationStatus).state = "DONE" := by
  refine ⟨?_, fun _ => trivial, ?_⟩
  · exact dataMigrationStatus_spec.2.2.1
      [{ modelName := "m", dataVersion := 2, result := some (.error "E") }]
      { state := "STARTED", latestErrors := none, completed := [("m", 1)] }
      "m" (by decide)
  · exact (dataMigrationStatus_spec.2.2.2
      [{ modelName := "m", dataVersion := 1, result := none }]).mpr (by decide)

/-- Claim C8 (spec-modelled): calling `start()` on an already-started
initializer fails with `BucketsInitAlreadyStartedError` and leaves the
instance — and hence the pipeline launched by the first call —
untouched; the first call on a fresh instance succeeds. -/
theorem start_second_call_fails (i : Initializer)
    (h : i.startCalled = false) :
    ∀ e i₁, i.start = (e, i₁) →
      e = none ∧
      i₁.start = (some (JsError.error "BucketsInitAlreadyStartedError"), i₁) := by
  intro e i₁ heq
  rw [Initializer.start, if_neg (by simp [h])] at heq
  injection heq with he hi
  subst he
  subst hi
  refine ⟨rfl, ?_⟩
  rw [Initializer.start, if_pos rfl]

/-- Witness for C8 on a concrete fresh initializer. -/
theorem start_second_call_fails_witness :
    (({ startCalled := false, heap := [{ state := "NOT_STARTED", info := [] }],
        statusAddrs := { bucketsSetup := 0, bucketsReindex := 0,
                         dataMigrations := 0 } } : Initializer).start.2).start.1 =
      some (JsError.error "BucketsInitAlreadyStartedError") := by
  have h := start_second_call_fails
    { startCalled := false, heap := [{ state := "NOT_STARTED", info := [] }],
      statusAddrs := { bucketsSetup := 0, bucketsReindex := 0,
                       dataMigrations := 0 } } rfl _ _ rfl
  exact congrArg Prod.fst h.2

/-- Claim C9 (spec-modelled): `status()` returns a deep copy of the
Status Model — the three returned sub-records are structurally equal to
the internal ones, every returned `state` field is one of `NOT_STARTED`,
`STARTED`, `DONE`, `ERROR`, and mutating any cell of the returned copy
leaves the internal status readable unchanged. -/
theorem status_returns_deep_copy (i : Initializer) (hwf : i.wellFormed) :
    (readCell i.status.1 i.status.2.bucketsSetup =
        readCell i.heap i.statusAddrs.bucketsSetup ∧
      readCell i.status.1 i.status.2.bucketsReindex =
        readCell i.heap i.statusAddrs.bucketsReindex ∧
      readCell i.status.1 i.status.2.dataMigrations =
        readCell i.heap i.statusAddrs.dataMigrations) ∧
    (∀ a c, (a = i.status.2.bucketsSetup ∨ a = i.status.2.bucketsReindex ∨
        a = i.status.2.dataMigrations) →
      readCell i.status.1 a = some c → c.state ∈ VALID_STATES) ∧
    (∀ a c, (a = i.status.2.bucketsSetup ∨ a = i.status.2.bucketsReindex ∨
        a = i.status.2.dataMigrations) →
      readCell (writeCell i.status.1 a c) i.statusAddrs.bucketsSetup =
          readCell i.heap i.statusAddrs.bucketsSetup ∧
      readCell (writeCell i.status.1 a c) i.statusAddrs.bucketsReindex =
          readCell i.heap i.statusAddrs.bucketsReindex ∧
      readCell (writeCell i.status.1 a c) i.statusAddrs.dataMigrations =
          readCell i.heap i.statusAddrs.dataMigrations) := by
  obtain ⟨⟨c1, hc1, hs1⟩, ⟨c2, hc2, hs2⟩, ⟨c3, hc3, hs3⟩⟩ := hwf
  have hb1 : i.statusAddrs.bucketsSetup < i.heap.length := by
    rw [readCell, List.getElem?_eq_some] at hc1
    exact hc1.1
  have hb2 : i.statusAddrs.bucketsReindex < i.heap.length := by
    rw [readCell, List.getElem?_eq_some] at hc2
    exact hc2.1
  have hb3 : i.statusAddrs.dataMigrations < i.heap.length := by
    rw [readCell, List.getElem?_eq_some] at hc3
    exact hc3.1
  have hread : ∀ k : Nat, k < 3 →
      readCell i.status.1 (i.heap.length + k) =
        readCell i.heap
          (if k = 0 then i.statusAddrs.bucketsSetup
           else if k = 1 then i.statusAddrs.bucketsReindex
           else i.statusAddrs.dataMigrations) := by
    intro k hk
    have hc1' := hc1
    have hc2' := hc2
    have hc3' := hc3
    rw [readCell] at hc1' hc2' hc3'
    rw [Initializer.status, statusDeepCopy]
    simp only [readCell]
    rw [List.getElem?_append_right (Nat.le_add_right _ _), Nat.add_sub_cancel_left]
    interval_cases k
    · simp [hc1']
    · simp [hc2']
    · simp [hc3']
  have haddr : i.status.2 =
      { bucketsSetup := i.heap.length, bucketsReindex := i.heap.length + 1,
        dataMigrations := i.heap.length + 2 } := rfl
  have hcopy1 : readCell i.status.1 i.status.2.bucketsSetup =
      readCell i.heap i.statusAddrs.bucketsSetup := by
    rw [haddr]
    simpa using hread 0 (by omega)
  have hcopy2 : readCell i.status.1 i.status.2.bucketsReindex =
      readCell i.heap i.statusAddrs.bucketsReindex := by
    rw [haddr]
    simpa using hread 1 (by omega)
  have hcopy3 : readCell i.status.1 i.status.2.dataMigrations =
      readCell i.heap i.statusAddrs.dataMigrations := by
    rw [haddr]
    simpa using hread 2 (by omega)
  refine ⟨⟨hcopy1, hcopy2, hcopy3⟩, ?_, ?_⟩
  · intro a c ha hc
    rcases ha with rfl | rfl | rfl
    · rw [hcopy1, hc1] at hc
      injection hc with hc
      exact hc ▸ hs1
    · rw [hcopy2, hc2] at hc
      injection hc with hc
      exact hc ▸ hs2
    · rw [hcopy3, hc3] at hc
      injection hc with hc
      exact hc ▸ hs3
  · intro a c ha
    have hage : i.heap.length ≤ a := by
      rw [haddr] at ha
      rcases ha with rfl | rfl | rfl <;> simp
    have hwrite : ∀ b : Nat, b < i.heap.length →
        readCell (writeCell i.status.1 a c) b = readCell i.heap b := by
      intro b hb
      rw [writeCell, readCell, List.getElem?_set_ne (by omega)]
      rw [Initializer.status, statusDeepCopy]
      simp only
      rw [List.getElem?_append_left hb]
      rfl
    exact ⟨hwrite _ hb1, hwrite _ hb2, hwrite _ hb3⟩

/-- Witness for C9 on a concrete well-formed initializer. -/
theorem status_returns_deep_copy_witness :
    readCell
        (({ startCalled := false,
            heap := [{ state := "NOT_STARTED", info := [] },
                     { state := "NOT_STARTED", info := [] },
                     { state := "NOT_STARTED", info := [] }],
            statusAddrs := { bucketsSetup := 0, bucketsReindex := 1,
                             dataMigrations := 2 } } : Initializer).status.1)
        (({ startCalled := false,
            heap := [{ state := "NOT_STARTED", info := [] },
                     { state := "NOT_STARTED", info := [] },
                     { state := "NOT_STARTED", info := [] }],
            statusAddrs := { bucketsSetup := 0, bucketsReindex := 1,
                             dataMigrations := 2 } } : Initializer).status.2.bucketsSetup) =
      some { state := "NOT_STARTED", info := [] } := by
  have h := (status_returns_deep_copy
    { startCalled := false,
      heap := [{ state := "NOT_STARTED", info := [] },
               { state := "NOT_STARTED", info := [] },
               { state := "NOT_STARTED", info := [] }],
      statusAddrs := { bucketsSetup := 0, bucketsReindex := 1,
                       dataMigrations := 2 } }
    ⟨⟨{ state := "NOT_STARTED", info := [] }, rfl, by decide⟩,
     ⟨{ state := "NOT_STARTED", info := [] }, rfl, by decide⟩,
     ⟨{ state := "NOT_STARTED", info := [] }, rfl, by decide⟩⟩).1.1
  rw [h]
  rfl

end MerciBuckets
